import Mathlib

/-!
Verification development for the multiplayer-beats room/turn core.

The definitions below are a shallow embedding of the server-side
Socket.IO handlers (`server/handlers.ts`), the room registry
(`server/rooms.ts`) and the client turn hook
(`app/hooks/useTurnManager.ts`).

Modelling conventions:
* a JavaScript `Map` is an insertion-ordered association list
  (`List (String × Player)`); `Map.set`, `Map.get`, `Map.delete`,
  `Map.size` and `Map.values` are embedded below as `mapSet`, `mapGet`,
  `mapDelete`, `mapSize` and `mapValues`;
* every handler takes the target `Room` and returns the updated room
  together with the list of emitted events (`Emit` tags the recipient
  set: sender only, other connections, or all connections);
* the unchecked JavaScript array write in the `toggle-step` handler is
  embedded with JavaScript semantics: reading an element of a missing
  row (`room.steps[i]` with `i` outside the array) throws a
  `TypeError`, embedded as `Except.error ()`; writing past the end of
  an existing row extends it (array holes are read back as `false`,
  standing for the falsy `undefined`).
-/

namespace MB

/-- JS `String.prototype.toLowerCase` as used by the name comparison
in the `join-room` handler (the names at play are plain ASCII, so
per-character lowercasing is the whole story). -/
def jsToLowerCase (s : String) : String :=
  ⟨s.data.map Char.toLower⟩

/-- Server-side player record, as built by the `join-room` handler
(`id`, `name`, `socketId`, `playerNumber`). -/
structure Player where
  id : String
  name : String
  socketId : String
  playerNumber : Nat
  deriving Repr, DecidableEq

/-- Turn state, `{currentPlayer, timeRemaining, isActive, round}`,
shared between `server/rooms.ts` and `app/types` (`TurnState`). -/
structure TurnState where
  currentPlayer : Nat
  timeRemaining : Int
  isActive : Bool
  round : Nat
  deriving Repr, DecidableEq

/-- Server-side room state (`server/rooms.ts` `Room`): players map,
step grid, bpm and turn state. -/
structure Room where
  id : String
  players : List (String × Player)
  steps : List (List Bool)
  bpm : Int
  turn : TurnState
  deriving Repr, DecidableEq

/-- JS `Map.prototype.get`: the value stored under `k`, if any (a JS
map holds at most one entry per key). -/
def mapGet (m : List (String × Player)) (k : String) : Option Player :=
  match m with
  | [] => none
  | e :: t => if e.1 == k then some e.2 else mapGet t k

/-- JS `Map.prototype.set`: replaces the entry for `k` in place when
the key is present, appends otherwise (JS maps keep insertion
order). -/
def mapSet (m : List (String × Player)) (k : String) (v : Player) :
    List (String × Player) :=
  match m with
  | [] => [(k, v)]
  | e :: t => if e.1 == k then (k, v) :: t else e :: mapSet t k v

/-- JS `Map.prototype.delete`: removes the entry for `k`, if any. -/
def mapDelete (m : List (String × Player)) (k : String) :
    List (String × Player) :=
  match m with
  | [] => []
  | e :: t => if e.1 == k then t else e :: mapDelete t k

/-- JS `Map.prototype.size`. -/
def mapSize (m : List (String × Player)) : Nat := m.length

/-- JS `Map.prototype.values`, in insertion order. -/
def mapValues (m : List (String × Player)) : List Player :=
  m.map (fun e => e.2)

/-- Constant `INSTRUMENTS` (`server/types.ts`, also inlined in the
first generation of `server/socket.ts`): the four drum rows. -/
def INSTRUMENTS : List String := ["kick", "snare", "hihat", "clap"]

/-- Constant `STEPS = 16` (`server/types.ts`). -/
def STEPS : Nat := 16

/-- Constant `TURN_DURATION = 60` (`server/types.ts`), the fixed turn
length in seconds; the first-generation inline handlers used the
literal `60` for the same purpose. -/
def TURN_DURATION : Int := 60

/-- Constant `DEFAULT_BPM = 120` (`server/types.ts`), the tempo a
fresh room starts with. -/
def DEFAULT_BPM : Int := 120

/-- Function `createEmptySteps` (`server/rooms.ts`): one all-false row of
`STEPS` cells per instrument. -/
def createEmptySteps : List (List Bool) :=
  INSTRUMENTS.map (fun _ => List.replicate STEPS false)

/-- Initial turn state installed by `getRoom` and by `reset-game`. -/
def initialTurn : TurnState :=
  { currentPlayer := 1, timeRemaining := TURN_DURATION,
    isActive := false, round := 1 }

/-- The room freshly created by `getRoom` for an unknown id. -/
def freshRoom (roomId : String) : Room :=
  { id := roomId, players := [], steps := createEmptySteps,
    bpm := DEFAULT_BPM, turn := initialTurn }

/-- Predicate `isRoomFull` (`server/rooms.ts`): `players.size >= 2`. -/
def isRoomFull (room : Room) : Bool :=
  2 ≤ mapSize room.players

/-- Predicate `isRoomEmpty` (`server/rooms.ts`): `players.size === 0`. -/
def isRoomEmpty (room : Room) : Bool :=
  mapSize room.players == 0

/-- Events the server emits, with the payload fields the handlers
send. -/
inductive ServerEvent where
  | joinRejected (reason : String)
  | roomFull
  | joinedRoom (playerNumber : Nat) (roomId : String)
      (steps : List (List Bool)) (bpm : Int) (turn : TurnState)
      (players : List Player)
  | playerJoined (playerNumber : Nat) (playerId : String)
      (playerName : String)
  | stepToggled (instrumentIndex stepIndex : Nat) (active : Bool)
      (playerId : String)
  | notYourTurn (currentPlayer yourPlayer : Nat)
  | bpmChanged (bpm : Int) (playerId : String)
  | turnStarted (currentPlayer : Nat) (timeRemaining : Int) (round : Nat)
  | turnEnded (currentPlayer : Nat) (timeRemaining : Int) (round : Nat)
  | gameReset (steps : List (List Bool)) (bpm : Int) (turn : TurnState)
  | patternCleared
  | playerLeft (playerId : String)
  deriving Repr, DecidableEq

/-- An emission, tagged with its recipient set: `socket.emit` goes to
the sender only, `socket.to(roomId).emit` to the other connections,
`io.to(roomId).emit` to every connection in the room. -/
inductive Emit where
  | toSender (e : ServerEvent)
  | toOthers (e : ServerEvent)
  | toAll (e : ServerEvent)
  deriving Repr, DecidableEq

/-- The `join-room` handler (`server/handlers.ts`): rejects a
case-insensitively taken name with `join-rejected`, then a full room
with `room-full`, otherwise admits with slot `players.size + 1`. -/
def joinRoom (socketId playerName : String) (room : Room) :
    Room × List Emit :=
  let existingPlayer := (mapValues room.players).find?
    (fun p => jsToLowerCase p.name == jsToLowerCase playerName)
  if existingPlayer.isSome then
    (room, [Emit.toSender (ServerEvent.joinRejected "name-taken")])
  else if isRoomFull room then
    (room, [Emit.toSender ServerEvent.roomFull])
  else
    let playerNum := mapSize room.players + 1
    let newPlayer : Player :=
      { id := socketId, name := playerName, socketId := socketId,
        playerNumber := playerNum }
    let players' := mapSet room.players socketId newPlayer
    let room' := { room with players := players' }
    (room',
     [Emit.toSender (ServerEvent.joinedRoom playerNum room'.id
        room'.steps room'.bpm room'.turn (mapValues room'.players)),
      Emit.toOthers (ServerEvent.playerJoined playerNum socketId
        playerName)])

/-- JS array element assignment `row[j] = v`: in-bounds writes
replace, writes past the end extend the array to length `j + 1`
(holes read back as `false`, standing for the falsy `undefined`). -/
def jsWriteRow (row : List Bool) (j : Nat) (v : Bool) : List Bool :=
  if j < row.length then row.set j v
  else row ++ List.replicate (j - row.length) false ++ [v]

/-- The `toggle-step` handler (`server/handlers.ts`): returns silently
for a non-member sender; rejects with `not-your-turn` when the turn is
active and the sender is not the current player; otherwise performs
`room.steps[i][j] = !room.steps[i][j]` with JS array semantics —
`Except.error ()` is the `TypeError` thrown when `room.steps[i]` is
`undefined` — and broadcasts the written value to the other
connections. -/
def toggleStep (socketId : String) (instrumentIndex stepIndex : Nat)
    (room : Room) : Except Unit (Room × List Emit) :=
  match mapGet room.players socketId with
  | none => Except.ok (room, [])
  | some player =>
    if room.turn.isActive ∧ player.playerNumber ≠ room.turn.currentPlayer
    then
      Except.ok (room, [Emit.toSender (ServerEvent.notYourTurn
        room.turn.currentPlayer player.playerNumber)])
    else
      match room.steps[instrumentIndex]? with
      | none => Except.error ()
      | some row =>
        let newVal := !((row[stepIndex]?).getD false)
        let steps' := room.steps.set instrumentIndex
          (jsWriteRow row stepIndex newVal)
        Except.ok
          ({ room with steps := steps' },
           [Emit.toOthers (ServerEvent.stepToggled instrumentIndex
              stepIndex newVal socketId)])

/-- The `set-bpm` handler: stores the requested bpm as-is and
broadcasts it to the other connections. -/
def setBpm (socketId : String) (bpm : Int) (room : Room) :
    Room × List Emit :=
  ({ room with bpm := bpm },
   [Emit.toOthers (ServerEvent.bpmChanged bpm socketId)])

/-- The `start-turn` handler: arms the turn and resets the clock. -/
def startTurn (room : Room) : Room × List Emit :=
  let turn' : TurnState :=
    { room.turn with isActive := true, timeRemaining := TURN_DURATION }
  ({ room with turn := turn' },
   [Emit.toAll (ServerEvent.turnStarted turn'.currentPlayer
      turn'.timeRemaining turn'.round)])

/-- The `end-turn` handler: flips `currentPlayer`, deactivates, resets
the clock, and increments `round` when the new current player is 1. -/
def endTurn (room : Room) : Room × List Emit :=
  let newPlayer : Nat := if room.turn.currentPlayer = 1 then 2 else 1
  let newRound : Nat :=
    if newPlayer = 1 then room.turn.round + 1 else room.turn.round
  let turn' : TurnState :=
    { currentPlayer := newPlayer, timeRemaining := TURN_DURATION,
      isActive := false, round := newRound }
  ({ room with turn := turn' },
   [Emit.toAll (ServerEvent.turnEnded newPlayer TURN_DURATION newRound)])

/-- The `reset-game` handler: empty grid, initial turn state, bpm
kept. -/
def resetGame (room : Room) : Room × List Emit :=
  let room' : Room :=
    { room with steps := createEmptySteps, turn := initialTurn }
  (room',
   [Emit.toAll (ServerEvent.gameReset room'.steps room'.bpm room'.turn)])

/-- The `clear-pattern` handler. -/
def clearPattern (room : Room) : Room × List Emit :=
  ({ room with steps := createEmptySteps },
   [Emit.toAll ServerEvent.patternCleared])

/-- The per-room effect of the `disconnect` handler: removes the
player when present and notifies the others. (The handler then drops
the room from the registry when it became empty; no claim below
depends on the registry itself.) -/
def disconnect (socketId : String) (room : Room) : Room × List Emit :=
  if (mapGet room.players socketId).isSome then
    ({ room with players := mapDelete room.players socketId },
     [Emit.toOthers (ServerEvent.playerLeft socketId)])
  else
    (room, [])

/-- Function `endTurn` of `app/hooks/useTurnManager.ts`: next player is the
other one, the round increments when the ending player was player 2,
the clock resets to `duration` and the turn deactivates. -/
def hookEndTurn (duration : Int) (prev : TurnState) : TurnState :=
  { currentPlayer := if prev.currentPlayer = 1 then 2 else 1,
    timeRemaining := duration,
    isActive := false,
    round := if prev.currentPlayer = 2 then prev.round + 1
             else prev.round }

/-- One firing of the interval body in `useTurnManager`'s timer
effect: the effect only arms the interval while `isActive` and
`timeRemaining > 0`; the body decrements, and on reaching 0 stores
`timeRemaining = 0` and immediately ends the turn. -/
def hookTick (duration : Int) (s : TurnState) : TurnState :=
  if ¬ s.isActive ∨ s.timeRemaining ≤ 0 then s
  else
    let newTime := s.timeRemaining - 1
    if newTime ≤ 0 then hookEndTurn duration { s with timeRemaining := 0 }
    else { s with timeRemaining := newTime }

/-- The grid mutation performed by an accepted `toggle-step` on an
existing row: `room.steps[i][j] = !room.steps[i][j]`. -/
def toggleCellJS (g : List (List Bool)) (i j : Nat) :
    List (List Bool) :=
  match g[i]? with
  | none => g
  | some row => g.set i (jsWriteRow row j (!((row[j]?).getD false)))

/-- Reads cell `(i, j)` of a grid (missing entries read as the falsy
`undefined`, embedded `false`). -/
def cellGet (g : List (List Bool)) (i j : Nat) : Bool :=
  match g[i]? with
  | none => false
  | some row => (row[j]?).getD false

/-- Applies `n` successive `toggle-step` mutations to the same cell. -/
def applyToggles (i j : Nat) (g : List (List Bool)) : Nat → List (List Bool)
  | 0 => g
  | n + 1 => toggleCellJS (applyToggles i j g n) i j

/-- Observer: whether the `toggle-step` handler threw (`TypeError`). -/
def toggleThrew (x : Except Unit (Room × List Emit)) : Bool :=
  match x with
  | Except.error _ => true
  | Except.ok _ => false

/-- Observer: the grid after a `toggle-step` handler run (falling back
to `g` when the handler threw). -/
def toggleSteps (x : Except Unit (Room × List Emit))
    (g : List (List Bool)) : List (List Bool) :=
  match x with
  | Except.ok (r, _) => r.steps
  | Except.error _ => g

/-- Room `"R"` after Ann (socket `"a"`) and then Ben (socket `"b"`)
joined a fresh room. -/
def roomAnnBen : Room :=
  (joinRoom "b" "Ben" ((joinRoom "a" "Ann" (freshRoom "R")).1)).1

/-- The state of `roomAnnBen` after Ann's socket disconnected. -/
def roomBenOnly : Room := (disconnect "a" roomAnnBen).1

/-- The state of `roomBenOnly` after Cara (socket `"c"`) joined. -/
def roomBenCara : Room := (joinRoom "c" "Cara" roomBenOnly).1

/-- A one-member idle room used as the toggle test bench. -/
def oneMemberRoom : Room :=
  { freshRoom "R" with
    players := [("a", { id := "a", name := "Ann", socketId := "a",
                        playerNumber := 1 })] }

/-- The room `roomAnnBen` with an active turn for player 1. -/
def activeRoomP1 : Room :=
  { roomAnnBen with
    turn := { currentPlayer := 1, timeRemaining := 60,
              isActive := true, round := 1 } }

/-- Reading after `Map.set` on the written key sees the written
value. -/
theorem mapGet_mapSet_self (m : List (String × Player)) (k : String)
    (v : Player) : mapGet (mapSet m k v) k = some v := by
  induction m with
  | nil => simp [mapSet, mapGet]
  | cons e t ih =>
    by_cases he : (e.1 == k) = true
    · simp [mapSet, mapGet, he]
    · simp [mapSet, mapGet, he, ih]

/-- Writing with `Map.set` leaves every other key's binding unchanged. -/
theorem mapGet_mapSet_ne (m : List (String × Player)) (k k' : String)
    (v : Player) (h : k' ≠ k) :
    mapGet (mapSet m k v) k' = mapGet m k' := by
  induction m with
  | nil =>
      have hkk : ¬ k = k' := fun hk => h hk.symm
      simp [mapSet, mapGet, hkk]
  | cons e t ih =>
    by_cases he : (e.1 == k) = true
    · have hek : e.1 = k := by simpa using he
      have hkk : ¬ k = k' := fun hk => h hk.symm
      simp [mapSet, mapGet, he, hek, hkk]
    · simp [mapSet, mapGet, he, ih]

/-- Writing with `Map.set` grows the map by at most one entry. -/
theorem mapSize_mapSet (m : List (String × Player)) (k : String)
    (v : Player) :
    mapSize (mapSet m k v) = mapSize m ∨
    mapSize (mapSet m k v) = mapSize m + 1 := by
  induction m with
  | nil => simp [mapSet, mapSize]
  | cons e t ih =>
    by_cases he : (e.1 == k) = true
    · simp [mapSet, mapSize, he]
    · rcases ih with h1 | h1 <;>
        simp [mapSet, mapSize, he] <;>
        simp [mapSize] at h1 <;> omega

/-- Writing with `Map.set` grows the map by at most one entry
(inequality form). -/
theorem mapSize_mapSet_le (m : List (String × Player)) (k : String)
    (v : Player) : mapSize (mapSet m k v) ≤ mapSize m + 1 := by
  rcases mapSize_mapSet m k v with h | h <;> omega

/-- An in-bounds JS array write is `List.set`. -/
theorem jsWriteRow_set (row : List Bool) (j : Nat) (v : Bool)
    (hj : j < row.length) : jsWriteRow row j v = row.set j v := by
  simp [jsWriteRow, hj]

/-- An in-bounds cell toggle rewrites exactly the targeted row. -/
theorem toggleCellJS_get (g : List (List Bool)) (i j : Nat)
    (row : List Bool) (hrow : g[i]? = some row) (hj : j < row.length) :
    (toggleCellJS g i j)[i]?
      = some (row.set j (!((row[j]?).getD false))) := by
  have hi : i < g.length := by
    by_contra hc
    rw [List.getElem?_eq_none (Nat.le_of_not_lt hc)] at hrow
    exact Option.noConfusion hrow
  simp [toggleCellJS, hrow, jsWriteRow_set _ _ _ hj,
    List.getElem?_set_eq_of_lt _ hi]

/-- An in-bounds cell toggle flips exactly the targeted cell. -/
theorem toggleCellJS_cell (g : List (List Bool)) (i j : Nat)
    (row : List Bool) (hrow : g[i]? = some row) (hj : j < row.length) :
    cellGet (toggleCellJS g i j) i j = !(cellGet g i j) := by
  have h1 := toggleCellJS_get g i j row hrow hj
  simp [cellGet, h1, hrow, List.getElem?_set_eq_of_lt _ hj]

/-- Any `n` in-bounds toggles of the same cell keep the row's shape and
leave the cell at its initial value xor the toggle count's parity. -/
theorem applyToggles_parity (i j : Nat) (g : List (List Bool))
    (row : List Bool) (hrow : g[i]? = some row)
    (hj : j < row.length) (n : Nat) :
    ∃ row', (applyToggles i j g n)[i]? = some row' ∧
      row'.length = row.length ∧
      cellGet (applyToggles i j g n) i j
        = xor (cellGet g i j) (decide (n % 2 = 1)) := by
  induction n with
  | zero => exact ⟨row, hrow, rfl, by simp [applyToggles]⟩
  | succ n ih =>
    obtain ⟨row', hrow', hlen', hcell'⟩ := ih
    have hj' : j < row'.length := hlen' ▸ hj
    refine ⟨row'.set j (!((row'[j]?).getD false)), ?_, ?_, ?_⟩
    · exact toggleCellJS_get _ i j row' hrow' hj'
    · simpa using hlen'
    · have hc := toggleCellJS_cell _ i j row' hrow' hj'
      rw [applyToggles, hc, hcell']
      rcases Nat.mod_two_eq_zero_or_one n with h2 | h2 <;>
        simp [Nat.add_mod, h2, Bool.xor_not]

/-- C10: a `toggle-step` from a connection that is not in the room's
players map returns with the room unchanged and no emission at all —
no `step-toggled`, no `not-your-turn` — and this does not depend on
whether the turn is active or idle. -/
theorem toggle_nonmember_silent (room : Room) (sid : String)
    (i j : Nat) (h : mapGet room.players sid = none) :
    toggleStep sid i j room = Except.ok (room, []) := by
  simp [toggleStep, h]

theorem toggle_nonmember_silent_witness :
    mapGet roomAnnBen.players "z" = none ∧
    toggleStep "z" 0 0 roomAnnBen = Except.ok (roomAnnBen, []) :=
  ⟨by decide, toggle_nonmember_silent roomAnnBen "z" 0 0 (by decide)⟩

/-- C5: while the turn is active, the tick that decrements
`timeRemaining` from 1 to 0 lands in exactly the state an explicit
`endTurn` would produce at that same moment (same `currentPlayer`,
`round`, `timeRemaining`, `isActive`). -/
theorem tick_timeout_matches_end_turn (d : Int) (s : TurnState)
    (hA : s.isActive = true) (h1 : s.timeRemaining = 1) :
    hookTick d s = hookEndTurn d s := by
  simp [hookTick, hA, h1, hookEndTurn]

theorem tick_timeout_matches_end_turn_witness :
    hookTick 60 { currentPlayer := 1, timeRemaining := 1,
                  isActive := true, round := 1 }
      = hookEndTurn 60 { currentPlayer := 1, timeRemaining := 1,
                         isActive := true, round := 1 } :=
  tick_timeout_matches_end_turn 60
    { currentPlayer := 1, timeRemaining := 1,
      isActive := true, round := 1 } rfl rfl

/-- C4 counterexample: `set-bpm` with a requested bpm of 999 stores
999, which is outside `[60, 180]` — the server handler does not
clamp. -/
theorem set_bpm_stores_out_of_range :
    (setBpm "a" 999 (freshRoom "R")).1.bpm = 999 ∧
    ¬ (60 ≤ (setBpm "a" 999 (freshRoom "R")).1.bpm ∧
       (setBpm "a" 999 (freshRoom "R")).1.bpm ≤ 180) := by
  decide

/-- C4 amended: `set-bpm` stores the requested bpm verbatim (no
server-side clamping), so the stored tempo lies in `[60, 180]` exactly
when the requested value does. -/
theorem set_bpm_stores_request_unclamped (room : Room) (sid : String)
    (b : Int) :
    (setBpm sid b room).1.bpm = b ∧
    (60 ≤ b → b ≤ 180 →
      60 ≤ (setBpm sid b room).1.bpm ∧ (setBpm sid b room).1.bpm ≤ 180) := by
  refine ⟨rfl, fun h1 h2 => ⟨?_, ?_⟩⟩ <;> simpa [setBpm]

theorem set_bpm_stores_request_unclamped_witness :
    60 ≤ (setBpm "a" 120 (freshRoom "R")).1.bpm ∧
    (setBpm "a" 120 (freshRoom "R")).1.bpm ≤ 180 :=
  (set_bpm_stores_request_unclamped (freshRoom "R") "a" 120).2
    (by decide) (by decide)

/-- C8: `reset-game` always produces the all-false 4×16 grid and the
turn state `{currentPlayer := 1, timeRemaining := 60,
isActive := false, round := 1}`, whatever the prior room state; and
among the turn transitions, `start-turn` and `end-turn` leave the grid
untouched (the client tick acts on `TurnState` alone and has no grid
to touch), so `reset-game` is the only grid-modifying one. -/
theorem reset_game_state (room : Room) :
    (resetGame room).1.steps = createEmptySteps ∧
    createEmptySteps = List.replicate 4 (List.replicate 16 false) ∧
    (resetGame room).1.turn
      = { currentPlayer := 1, timeRemaining := 60,
          isActive := false, round := 1 } ∧
    (startTurn room).1.steps = room.steps ∧
    (endTurn room).1.steps = room.steps :=
  ⟨rfl, by decide, rfl, rfl, rfl⟩

/-- C2 evaluation at the failing inputs: with a joined player and an
idle turn, `toggle-step` with `instrumentIndex = 4` throws (the code
reads an element of `undefined`), and `toggle-step` with
`stepIndex = 16` does not throw but silently grows row 0 of the 4×16
grid to length 17 — out-of-range coordinates are neither rejected nor
clamped. -/
theorem toggle_out_of_bounds_corrupts_or_throws :
    toggleThrew (toggleStep "a" 4 0 oneMemberRoom) = true ∧
    toggleThrew (toggleStep "a" 0 16 oneMemberRoom) = false ∧
    toggleSteps (toggleStep "a" 0 16 oneMemberRoom) oneMemberRoom.steps
      ≠ oneMemberRoom.steps ∧
    (List.headD (toggleSteps (toggleStep "a" 0 16 oneMemberRoom)
      oneMemberRoom.steps) []).length = 17 := by
  decide

/-- C6: `end-turn` — accepted whatever `isActive` is, since the
handler never inspects it — flips `currentPlayer` between exactly 1
and 2, deactivates the turn, resets `timeRemaining` to 60, and
increments `round` exactly when the player whose turn ended was
player 2. -/
theorem end_turn_rotation (room : Room)
    (hcp : room.turn.currentPlayer = 1 ∨ room.turn.currentPlayer = 2) :
    (endTurn room).1.turn.currentPlayer
      = (if room.turn.currentPlayer = 1 then 2 else 1) ∧
    ((endTurn room).1.turn.currentPlayer = 1 ∨
     (endTurn room).1.turn.currentPlayer = 2) ∧
    (endTurn room).1.turn.isActive = false ∧
    (endTurn room).1.turn.timeRemaining = 60 ∧
    ((endTurn room).1.turn.round = room.turn.round + 1 ↔
      room.turn.currentPlayer = 2) := by
  rcases hcp with h | h <;> simp [endTurn, h, TURN_DURATION]

theorem end_turn_rotation_witness :
    (endTurn roomAnnBen).1.turn.currentPlayer
      = (if roomAnnBen.turn.currentPlayer = 1 then 2 else 1) ∧
    ((endTurn roomAnnBen).1.turn.currentPlayer = 1 ∨
     (endTurn roomAnnBen).1.turn.currentPlayer = 2) ∧
    (endTurn roomAnnBen).1.turn.isActive = false ∧
    (endTurn roomAnnBen).1.turn.timeRemaining = 60 ∧
    ((endTurn roomAnnBen).1.turn.round = roomAnnBen.turn.round + 1 ↔
      roomAnnBen.turn.currentPlayer = 2) :=
  end_turn_rotation roomAnnBen (Or.inl (by decide))

/-- C7: a `toggle-step` from a joined player who is not the current
player while the turn is active leaves the room unchanged and emits
exactly one event, `not-your-turn` to the sender only, carrying the
current player and the sender's own slot; while the turn is idle, a
toggle from any joined player is accepted — the targeted cell is
rewritten and `step-toggled` is broadcast to the other connections. -/
theorem toggle_turn_ownership (room : Room) (sid : String) (i j : Nat)
    (p : Player) (hmem : mapGet room.players sid = some p) :
    (room.turn.isActive = true →
      p.playerNumber ≠ room.turn.currentPlayer →
      toggleStep sid i j room = Except.ok (room,
        [Emit.toSender (ServerEvent.notYourTurn room.turn.currentPlayer
          p.playerNumber)])) ∧
    (room.turn.isActive = false →
      ∀ row, room.steps[i]? = some row → j < row.length →
      toggleStep sid i j room = Except.ok
        ({ room with steps := toggleCellJS room.steps i j },
         [Emit.toOthers (ServerEvent.stepToggled i j
           (!((row[j]?).getD false)) sid)])) := by
  constructor
  · intro hA hne
    simp [toggleStep, hmem, hA, hne]
  · intro hI row hrow hj
    simp [toggleStep, hmem, hI, toggleCellJS, hrow,
      jsWriteRow_set _ _ _ hj]

theorem toggle_turn_ownership_witness :
    toggleStep "b" 0 0 activeRoomP1 = Except.ok (activeRoomP1,
      [Emit.toSender (ServerEvent.notYourTurn
        activeRoomP1.turn.currentPlayer 2)]) :=
  (toggle_turn_ownership activeRoomP1 "b" 0 0
      { id := "b", name := "Ben", socketId := "b", playerNumber := 2 }
      (by decide)).1 (by decide) (by decide)

/-- C1 counterexample: on a room that already has its 2 players (Ann
and Ben), a further join whose name case-insensitively matches a
present player ("ann") is answered with `join-rejected` (name-taken),
not with `room-full`. -/
theorem join_full_with_taken_name_not_room_full :
    2 ≤ mapSize roomAnnBen.players ∧
    (joinRoom "s3" "ann" roomAnnBen).2
      = [Emit.toSender (ServerEvent.joinRejected "name-taken")] ∧
    (joinRoom "s3" "ann" roomAnnBen).2
      ≠ [Emit.toSender ServerEvent.roomFull] := by
  decide

/-- C1 amended: a join on a room that already has 2 players never
mutates the room; when the requested name is case-insensitively taken
by a present player the answer is exactly `join-rejected`
(name-taken), and otherwise it is exactly `room-full`; and
`players.size` never exceeds 2 across any join. -/
theorem join_on_full_room_rejected :
    (∀ room sid name, 2 ≤ mapSize room.players →
      (joinRoom sid name room).1 = room ∧
      (((mapValues room.players).find?
          (fun p => jsToLowerCase p.name == jsToLowerCase name)).isSome
          = true →
        (joinRoom sid name room).2
          = [Emit.toSender (ServerEvent.joinRejected "name-taken")]) ∧
      (((mapValues room.players).find?
          (fun p => jsToLowerCase p.name == jsToLowerCase name)).isSome
          = false →
        (joinRoom sid name room).2
          = [Emit.toSender ServerEvent.roomFull])) ∧
    (∀ room sid name, mapSize room.players ≤ 2 →
      mapSize (joinRoom sid name room).1.players ≤ 2) := by
  constructor
  · intro room sid name hfull
    have hfb : isRoomFull room = true := by
      simp only [isRoomFull, decide_eq_true_eq]
      exact hfull
    by_cases hname : ((mapValues room.players).find?
        (fun p => jsToLowerCase p.name == jsToLowerCase name)).isSome
      = true
    · refine ⟨by simp [joinRoom, hname], fun _ => by simp [joinRoom, hname],
        fun hc => ?_⟩
      rw [hname] at hc
      exact Bool.noConfusion hc
    · refine ⟨by simp [joinRoom, hname, hfb], fun hc => absurd hc hname,
        fun _ => by simp [joinRoom, hname, hfb]⟩
  · intro room sid name hle
    by_cases hname : ((mapValues room.players).find?
        (fun p => jsToLowerCase p.name == jsToLowerCase name)).isSome
      = true
    · simp [joinRoom, hname, hle]
    · by_cases hfull : isRoomFull room = true
      · simp [joinRoom, hname, hfull, hle]
      · have hlt : mapSize room.players < 2 := by
          simp only [isRoomFull, decide_eq_true_eq] at hfull
          omega
        simp only [joinRoom, hname, hfull, if_false]
        refine le_trans (mapSize_mapSet_le _ _ _) ?_
        omega

theorem join_on_full_room_rejected_witness :
    (joinRoom "s3" "Cara" roomAnnBen).1 = roomAnnBen ∧
    (joinRoom "s3" "Cara" roomAnnBen).2
      = [Emit.toSender ServerEvent.roomFull] ∧
    (joinRoom "s3" "ann" roomAnnBen).2
      = [Emit.toSender (ServerEvent.joinRejected "name-taken")] :=
  ⟨(join_on_full_room_rejected.1 roomAnnBen "s3" "Cara" (by decide)).1,
   (join_on_full_room_rejected.1 roomAnnBen "s3" "Cara"
     (by decide)).2.2 (by decide),
   (join_on_full_room_rejected.1 roomAnnBen "s3" "ann"
     (by decide)).2.1 (by decide)⟩

/-- C3 counterexample: Ann (socket `"a"`) and Ben (socket `"b"`) join
room `"R"`; Ann disconnects; Cara (socket `"c"`) joins. The handler
assigns Cara `players.size + 1 = 2`, so the two connected players,
Ben and Cara, both hold slot 2 — slots are not distinct, and the free
slot 1 was not reused. -/
theorem join_after_disconnect_duplicates_slot :
    (mapGet roomBenCara.players "b").map Player.playerNumber = some 2 ∧
    (mapGet roomBenCara.players "c").map Player.playerNumber = some 2 ∧
    mapSize roomBenCara.players = 2 := by
  decide

/-- C3 amended: an admitted join (name free, room not full) assigns
the joining socket the slot `players.size + 1` — slot 1 only when the
room was empty, slot 2 when one player was present, regardless of
which slot that player holds — and the records of already-connected
players are left untouched (a connected player's slot is never
reassigned). -/
theorem join_assigns_slot_size_succ (room : Room) (sid name : String)
    (hname : ((mapValues room.players).find?
      (fun p => jsToLowerCase p.name == jsToLowerCase name)).isSome
      = false)
    (hspace : mapSize room.players < 2) :
    (mapGet (joinRoom sid name room).1.players sid).map Player.playerNumber
      = some (mapSize room.players + 1) ∧
    (∀ k p, k ≠ sid → mapGet room.players k = some p →
      mapGet (joinRoom sid name room).1.players k = some p) := by
  have hfull : ¬ isRoomFull room = true := by
    simp only [isRoomFull, decide_eq_true_eq]
    omega
  constructor
  · simp [joinRoom, hname, hfull, mapGet_mapSet_self]
  · intro k p hk hget
    simp [joinRoom, hname, hfull, mapGet_mapSet_ne _ _ _ _ hk, hget]

theorem join_assigns_slot_size_succ_witness :
    (mapGet (joinRoom "a" "Ann" (freshRoom "R")).1.players "a").map
      Player.playerNumber
      = some (mapSize (freshRoom "R").players + 1) :=
  (join_assigns_slot_size_succ (freshRoom "R") "a" "Ann"
    (by decide) (by decide)).1

/-- C9: applying `n` `toggle-step` mutations to the same in-bounds
cell leaves that cell at its initial value xor the parity of `n`; and
an accepted `toggle-step` (joined sender, idle turn) performs exactly
this one-cell mutation on the room's grid and broadcasts the written
value. -/
theorem toggle_step_parity (i j n : Nat) (g : List (List Bool))
    (row : List Bool) (hrow : g[i]? = some row) (hj : j < row.length) :
    cellGet (applyToggles i j g n) i j
      = xor (cellGet g i j) (decide (n % 2 = 1)) ∧
    (∀ room sid p, mapGet room.players sid = some p →
      room.turn.isActive = false → room.steps = g →
      toggleStep sid i j room = Except.ok
        ({ room with steps := toggleCellJS g i j },
         [Emit.toOthers (ServerEvent.stepToggled i j
           (!((row[j]?).getD false)) sid)])) := by
  constructor
  · obtain ⟨row', _, _, hc⟩ := applyToggles_parity i j g row hrow hj n
    exact hc
  · intro room sid p hmem hI hsteps
    subst hsteps
    simp [toggleStep, hmem, hI, toggleCellJS, hrow,
      jsWriteRow_set _ _ _ hj]

theorem toggle_step_parity_witness :
    cellGet (applyToggles 0 0 createEmptySteps 3) 0 0
      = xor (cellGet createEmptySteps 0 0) (decide (3 % 2 = 1)) :=
  (toggle_step_parity 0 0 3 createEmptySteps (List.replicate 16 false)
    (by decide) (by decide)).1

end MB
